import Mathlib

/-
  Verification of the urbanMicroclimateFoam radiation/vegetation core.

  Shallow embedding of the arithmetic performed by
    - viewFactorSky.C / directAndDiffuse.C (radiosity matrices, view-factor
      smoothing, LU-factorization cache policy, sun-position interpolation),
    - solarRayTracingGen.C (sun coupling coefficients, kcLAIboundary check),
    - calcLAI.C (trapezoidal LAD integration, Beer-Lambert transmittance,
      shadow forcing of LAI, trilinear interpolation),
    - simplifiedVegetation.C / simpleGrass.C (bounded leaf/grass temperature
      iteration).
  OpenFOAM scalars are modelled as real numbers; the exact-time interpolation
  logic of directAndDiffuse.C, which only compares and linearly combines
  scalars, is modelled over the rationals so that it stays fully executable.
-/

namespace Airflow

/-- OpenFOAM scalar constant SMALL for double precision. -/
noncomputable def SMALL : ℝ := 1e-15

/-! ### Radiosity coefficient matrices (viewFactorSky.C 650-697, directAndDiffuse.C 765-810) -/

/-- Long-wave coefficient matrix entry, from viewFactorSky.C:
diagonal invEj - (invEj - 1)*F(i,j), off-diagonal (1 - invEj)*F(i,j). -/
noncomputable def Cqr (F : ℕ → ℕ → ℝ) (E : ℕ → ℝ) (i j : ℕ) : ℝ :=
  if i = j then 1 / E j - (1 / E j - 1) * F i j else (1 - 1 / E j) * F i j

/-- Short-wave coefficient matrix entry, from directAndDiffuse.C:
diagonal (1/(1-A[j])) - (A[j]/(1-A[j]))*F(i,j), off-diagonal -(A[j]/(1-A[j]))*F(i,j). -/
noncomputable def Cqs (F : ℕ → ℕ → ℝ) (A : ℕ → ℝ) (i j : ℕ) : ℝ :=
  if i = j then 1 / (1 - A j) - (A j / (1 - A j)) * F i j
  else -(A j / (1 - A j)) * F i j

/-- The coefficient-matrix shape stated by the specification, parameterized by
the per-element factor r j (which is 1/E[j] for long-wave and 1/(1-A[j]) for
short-wave). -/
noncomputable def coeffSpec (F : ℕ → ℕ → ℝ) (r : ℕ → ℝ) (i j : ℕ) : ℝ :=
  if i = j then r j - (r j - 1) * F i j else (1 - r j) * F i j

/-! ### View-factor matrix smoothing (viewFactorSky.C 203-226, directAndDiffuse.C 359-377) -/

/-- Row smoothing as implemented in viewFactorSky.C: every entry is scaled by
(1 - delta/(sumF + 0.001)) where delta = sumF - 1. -/
noncomputable def smoothRowVFS (row : List ℝ) : List ℝ :=
  let sumF := row.sum
  let delta := sumF - 1
  row.map fun x => x * (1 - delta / (sumF + 0.001))

/-- Row smoothing as implemented in directAndDiffuse.C: every entry is scaled
by (1 - delta/sumF) where delta = sumF - 1. -/
noncomputable def smoothRowDAD (row : List ℝ) : List ℝ :=
  let sumF := row.sum
  let delta := sumF - 1
  row.map fun x => x * (1 - delta / sumF)

theorem list_sum_map_mul (l : List ℝ) (c : ℝ) :
    (l.map fun x => x * c).sum = l.sum * c := by
  induction l with
  | nil => simp
  | cons a t ih => simp [ih]; ring

/-- Claim C1: the long-wave radiosity coefficient matrix equals the
specification's formulas with r = 1/E, and the short-wave matrix equals the
same formulas with r = 1/(1-A), for every pair of indices, provided the albedo
is not 1. -/
theorem radiosity_coeff_matrix_matches_spec (F : ℕ → ℕ → ℝ) (E A : ℕ → ℝ)
    (i j : ℕ) (hA : A j ≠ 1) :
    Cqr F E i j = coeffSpec F (fun m => 1 / E m) i j ∧
    Cqs F A i j = coeffSpec F (fun m => 1 / (1 - A m)) i j := by
  have h1 : (1 : ℝ) - A j ≠ 0 := sub_ne_zero.mpr (Ne.symm hA)
  refine ⟨rfl, ?_⟩
  unfold Cqs coeffSpec
  split_ifs with h
  · have : A j / (1 - A j) = 1 / (1 - A j) - 1 := by
      field_simp
    rw [this]
  · have : -(A j / (1 - A j)) = 1 - 1 / (1 - A j) := by
      field_simp
    rw [this]

/-- Witness for C1 at concrete inputs (albedo 1/2, so the hypothesis holds). -/
theorem radiosity_coeff_matrix_matches_spec_witness :
    Cqr (fun _ _ => 2) (fun _ => 2) 0 1 =
      coeffSpec (fun _ _ => 2) (fun m => 1 / (fun _ => (2 : ℝ)) m) 0 1 ∧
    Cqs (fun _ _ => 2) (fun _ => (1 : ℝ) / 2) 0 1 =
      coeffSpec (fun _ _ => 2) (fun m => 1 / (1 - (fun _ => (1 : ℝ) / 2) m)) 0 1 :=
  radiosity_coeff_matrix_matches_spec (fun _ _ => 2) (fun _ => 2)
    (fun _ => (1 : ℝ) / 2) 0 1 (by norm_num)

/-- Claim C2, counterexample: viewFactorSky.C does not scale a row by
(1 - (rowSum - 1)/rowSum).  For the one-entry row [2] the claimed factor gives
2 * (1 - (2-1)/2) = 1, but the code divides by rowSum + 0.001. -/
theorem smoothing_factor_counterexample :
    smoothRowVFS [2] ≠ [(2 : ℝ) * (1 - ((2 : ℝ) - 1) / 2)] := by
  simp only [smoothRowVFS, List.sum_cons, List.sum_nil, List.map]
  intro h
  have h2 := List.head_eq_of_cons_eq h
  norm_num at h2

/-- Claim C2, amended: in directAndDiffuse.C every entry of a row is indeed
scaled by (1 - (rowSum-1)/rowSum) and the smoothed row sums to exactly 1, but
in viewFactorSky.C the scale factor is (1 - (rowSum-1)/(rowSum + 0.001)), so
the smoothed row sum is 1.001*rowSum/(rowSum + 0.001), which equals 1 exactly
only when rowSum = 1. -/
theorem smoothing_row_sum (row : List ℝ) (h : row.sum ≠ 0)
    (h2 : row.sum + 0.001 ≠ 0) :
    (smoothRowDAD row).sum = 1 ∧
    smoothRowDAD row = (row.map fun x => x * (1 - (row.sum - 1) / row.sum)) ∧
    smoothRowVFS row =
      (row.map fun x => x * (1 - (row.sum - 1) / (row.sum + 0.001))) ∧
    (smoothRowVFS row).sum = 1.001 * row.sum / (row.sum + 0.001) := by
  refine ⟨?_, rfl, rfl, ?_⟩
  · unfold smoothRowDAD
    rw [list_sum_map_mul]
    field_simp
  · unfold smoothRowVFS
    rw [list_sum_map_mul]
    field_simp
    ring

/-- Witness for C2's amended statement at the concrete row [2]. -/
theorem smoothing_row_sum_witness :
    (smoothRowDAD [2]).sum = 1 ∧
    smoothRowDAD [2] = (List.map (fun x => x * (1 - (List.sum [2] - 1) / List.sum [2])) [2]) ∧
    smoothRowVFS [2] =
      (List.map (fun x => x * (1 - (List.sum [2] - 1) / (List.sum [2] + 0.001))) [2]) ∧
    (smoothRowVFS [2]).sum = 1.001 * List.sum [(2 : ℝ)] / (List.sum [(2 : ℝ)] + 0.001) :=
  smoothing_row_sum [2] (by norm_num) (by norm_num)

/-! ### Sun coupling coefficient (solarRayTracingGen.C 819-846) -/

/-- A 3-component vector of scalars (OpenFOAM vector). -/
structure Vec3 where
  x : ℝ
  y : ℝ
  z : ℝ

/-- OpenFOAM dot product of two vectors. -/
noncomputable def dot3 (a b : Vec3) : ℝ := a.x * b.x + a.y * b.y + a.z * b.z

/-- OpenFOAM mag of a vector. -/
noncomputable def mag3 (a : Vec3) : ℝ := Real.sqrt (a.x ^ 2 + a.y ^ 2 + a.z ^ 2)

/-- Negation of a vector (flipping the outward normal). -/
noncomputable def negVec (a : Vec3) : Vec3 := ⟨-a.x, -a.y, -a.z⟩

/-- cosPhi as computed at solarRayTracingGen.C:836:
(Sf & sunPos)/(mag(Sf)*mag(sunPos) + SMALL). -/
noncomputable def cosPhiSun (Sf s : Vec3) : ℝ :=
  dot3 Sf s / (mag3 Sf * mag3 s + SMALL)

/-- Sun coupling coefficient assigned at solarRayTracingGen.C:838:
sunViewCoeff = nVisibleFaceFacesListFINE_avg * mag(cosPhi) * IDN. -/
noncomputable def sunViewCoeffOf (avgVis : ℝ) (Sf s : Vec3) (IDN : ℝ) : ℝ :=
  avgVis * |cosPhiSun Sf s| * IDN

/-- Claim C3, counterexample: an element with outward area vector (0,0,1) whose
ray toward the sun direction (0,0,1) is unobstructed (visible fraction 1)
faces away from the sun under the code's own sign convention (cosPhi > 0, see
the comment at solarRayTracingGen.C:843 saying cosPhi < 0 means the surface
looks toward the sun), yet receives a strictly positive coefficient at direct
irradiance 1000 - the cosine is taken in absolute value, never clipped to
zero. -/
theorem sun_coeff_clip_counterexample :
    0 < sunViewCoeffOf 1 ⟨0, 0, 1⟩ ⟨0, 0, 1⟩ 1000 ∧
    0 < dot3 ⟨0, 0, 1⟩ ⟨0, 0, 1⟩ := by
  have hm : mag3 ⟨0, 0, 1⟩ = 1 := by
    unfold mag3
    rw [show (0 : ℝ) ^ 2 + 0 ^ 2 + 1 ^ 2 = 1 by norm_num, Real.sqrt_one]
  constructor
  · unfold sunViewCoeffOf cosPhiSun
    rw [hm]
    unfold dot3 SMALL
    norm_num
  · unfold dot3
    norm_num

/-- Claim C3, amended: the sun coupling coefficient is
avgVis * |cosPhi| * I_direct with cosPhi = (Sf . s)/(|Sf| |s| + SMALL); the
absolute value of the cosine is used rather than a cosine clipped to zero
below the horizon, so the coefficient is invariant under flipping the
element's outward normal: a sun-averted element with an unobstructed ray
receives the same (positive) irradiance as the corresponding sun-facing one. -/
theorem sun_coeff_abs_cosine (avgVis : ℝ) (Sf s : Vec3) (IDN : ℝ) :
    sunViewCoeffOf avgVis Sf s IDN =
      avgVis * |dot3 Sf s / (mag3 Sf * mag3 s + SMALL)| * IDN ∧
    sunViewCoeffOf avgVis (negVec Sf) s IDN = sunViewCoeffOf avgVis Sf s IDN := by
  constructor
  · rfl
  · have hmag : mag3 (negVec Sf) = mag3 Sf := by
      unfold mag3 negVec
      norm_num
    have hdot : dot3 (negVec Sf) s = -dot3 Sf s := by
      unfold dot3 negVec
      ring
    unfold sunViewCoeffOf cosPhiSun
    rw [hmag, hdot, neg_div, abs_neg]

/-! ### LU-factorization cache policy (viewFactorSky.C 699-735, directAndDiffuse.C 812-848) -/

/-- Result of the first constant-optical-properties radiation update: the
factorization actually used, whether the persisted one was reused, whether the
mismatch warning was printed, and what (if anything) was written back to the
cache file. -/
structure CLUOutcome (M P : Type) where
  clu : M
  piv : P
  reused : Bool
  warned : Bool
  written : Option (ℕ × M × P)

/-- First-iteration cache logic of viewFactorSky.C 699-735 (identical in
directAndDiffuse.C 812-848): read the persisted file if readable; reuse the
stored factorization and pivot indices when the stored element count equals
the current total coarse-face count; otherwise warn and decompose again; a
freshly computed decomposition is written back only when nProcs > 1. -/
def cluFirstIter {M P : Type} (file : Option (ℕ × M × P)) (n : ℕ)
    (fresh : M × P) (nProcs : ℕ) : CLUOutcome M P :=
  match file with
  | some (c, m, p) =>
    if c = n then ⟨m, p, true, false, none⟩
    else ⟨fresh.1, fresh.2, false, true,
          if 1 < nProcs then some (n, fresh.1, fresh.2) else none⟩
  | none => ⟨fresh.1, fresh.2, false, false,
             if 1 < nProcs then some (n, fresh.1, fresh.2) else none⟩

/-- Claim C4: a readable cache file is reused exactly when its stored element
count equals the current total coarse-element count; on a mismatch the stored
factorization is discarded (the freshly decomposed matrix is used), a warning
is printed, and the cache is never silently reused. -/
theorem clu_cache_reuse_iff {M P : Type} (file : Option (ℕ × M × P)) (n : ℕ)
    (fresh : M × P) (nProcs : ℕ) :
    ((cluFirstIter file n fresh nProcs).reused = true ↔
      ∃ m p, file = some (n, m, p)) ∧
    (∀ c m p, file = some (c, m, p) → c ≠ n →
      (cluFirstIter file n fresh nProcs).clu = fresh.1 ∧
      (cluFirstIter file n fresh nProcs).piv = fresh.2 ∧
      (cluFirstIter file n fresh nProcs).warned = true) ∧
    (∀ m p, file = some (n, m, p) →
      (cluFirstIter file n fresh nProcs).clu = m ∧
      (cluFirstIter file n fresh nProcs).piv = p ∧
      (cluFirstIter file n fresh nProcs).reused = true ∧
      (cluFirstIter file n fresh nProcs).warned = false) := by
  match file with
  | none =>
    refine ⟨?_, ?_, ?_⟩
    · simp [cluFirstIter]
    · intro c m p hcm
      exact absurd hcm (by simp)
    · intro m p hcm
      exact absurd hcm (by simp)
  | some (c, m, p) =>
    by_cases hc : c = n
    · subst hc
      refine ⟨?_, ?_, ?_⟩
      · simp [cluFirstIter]
      · intro c2 m2 p2 hcm hne
        rw [Option.some.injEq, Prod.mk.injEq] at hcm
        exact absurd hcm.1.symm hne
      · intro m2 p2 hcm
        rw [Option.some.injEq, Prod.mk.injEq, Prod.mk.injEq] at hcm
        obtain ⟨-, hm, hp⟩ := hcm
        subst hm
        subst hp
        simp [cluFirstIter]
    · refine ⟨?_, ?_, ?_⟩
      · simp [cluFirstIter, hc]
      · intro c2 m2 p2 hcm hne
        simp [cluFirstIter, hc]
      · intro m2 p2 hcm
        rw [Option.some.injEq, Prod.mk.injEq] at hcm
        exact absurd hcm.1 hc
/-- Witness for C4 at concrete inputs: a stale file carrying element count 3
when the current count is 5 is discarded with a warning, and a matching file
is reused. -/
theorem clu_cache_reuse_iff_witness :
    ((cluFirstIter (some (3, 7, 9)) 5 ((1 : ℕ), (2 : ℕ)) 4).clu = 1 ∧
     (cluFirstIter (some (3, 7, 9)) 5 ((1 : ℕ), (2 : ℕ)) 4).piv = 2 ∧
     (cluFirstIter (some (3, 7, 9)) 5 ((1 : ℕ), (2 : ℕ)) 4).warned = true) ∧
    ((cluFirstIter (some (5, 7, 9)) 5 ((1 : ℕ), (2 : ℕ)) 4).clu = 7 ∧
     (cluFirstIter (some (5, 7, 9)) 5 ((1 : ℕ), (2 : ℕ)) 4).piv = 9 ∧
     (cluFirstIter (some (5, 7, 9)) 5 ((1 : ℕ), (2 : ℕ)) 4).reused = true ∧
     (cluFirstIter (some (5, 7, 9)) 5 ((1 : ℕ), (2 : ℕ)) 4).warned = false) :=
  ⟨(clu_cache_reuse_iff (some (3, 7, 9)) 5 ((1 : ℕ), (2 : ℕ)) 4).2.1 3 7 9 rfl
     (by decide),
   (clu_cache_reuse_iff (some (5, 7, 9)) 5 ((1 : ℕ), (2 : ℕ)) 4).2.2 7 9 rfl⟩

/-- Claim C10: the cache file is written only when more than one process is
used; a single-process run computes the factorization but persists nothing, so
a restarted serial run (starting again from no cache file) re-decomposes the
matrix instead of reusing a factorization. -/
theorem clu_cache_serial_not_persisted {M P : Type} (file : Option (ℕ × M × P))
    (n : ℕ) (fresh fresh2 : M × P) :
    ((cluFirstIter file n fresh 1).written = none) ∧
    ((cluFirstIter none n fresh 1).clu = fresh.1 ∧
     (cluFirstIter none n fresh 1).reused = false) ∧
    ((cluFirstIter ((cluFirstIter none n fresh 1).written) n fresh2 1).reused
      = false) ∧
    (∀ np, 1 < np →
      (cluFirstIter (none : Option (ℕ × M × P)) n fresh np).written =
        some (n, fresh.1, fresh.2)) := by
  refine ⟨?_, ⟨rfl, rfl⟩, rfl, ?_⟩
  · match file with
    | none => simp [cluFirstIter]
    | some (c, m, p) =>
      by_cases hc : c = n
      · simp [cluFirstIter, hc]
      · simp [cluFirstIter, hc]
  · intro np hnp
    simp [cluFirstIter, hnp]

/-- Witness for C10 at concrete inputs (a stale serial file, and four
processes for the parallel write). -/
theorem clu_cache_serial_not_persisted_witness :
    ((cluFirstIter (some (3, 7, 9)) 5 ((1 : ℕ), (2 : ℕ)) 1).written = none) ∧
    (cluFirstIter (none : Option (ℕ × ℕ × ℕ)) 5 (1, 2) 4).written =
      some (5, 1, 2) :=
  ⟨(clu_cache_serial_not_persisted (some (3, 7, 9)) 5 ((1 : ℕ), (2 : ℕ))
      (1, 2)).1,
   (clu_cache_serial_not_persisted (none : Option (ℕ × ℕ × ℕ)) 5 (1, 2)
      (1, 2)).2.2.2 4 (by decide)⟩

/-! ### Missing kcLAIboundary artifact (solarRayTracingGen.C 771-789) -/

/-- The fatal message printed when the vegetation LAI pre-pass artifact is
missing. -/
def kcLAImissingMsg : String :=
  "File kcLAIboundary not found! Did you not run calcLAI before?"

/-- The check at solarRayTracingGen.C:784-789: when at least one vegetation
region is configured and the kcLAIboundary header is not valid, abort with a
fatal descriptive error; otherwise proceed. -/
def solarRayTracingVegCheck (nVegRegions : ℕ) (headerOk : Bool) :
    Except String Unit :=
  if 0 < nVegRegions ∧ headerOk = false then Except.error kcLAImissingMsg
  else Except.ok ()

/-- Claim C9: with a vegetation region configured and the kcLAIboundary
artifact absent, the generator aborts with the fatal descriptive message; it
continues only when the artifact is present. -/
theorem kclai_missing_fatal (n : ℕ) (h : 0 < n) :
    solarRayTracingVegCheck n false = Except.error kcLAImissingMsg ∧
    (∀ ok : Bool, solarRayTracingVegCheck n ok = Except.ok () ↔ ok = true) ∧
    kcLAImissingMsg ≠ "" := by
  refine ⟨?_, ?_, by decide⟩
  · simp [solarRayTracingVegCheck, h]
  · intro ok
    match ok with
    | true => simp [solarRayTracingVegCheck]
    | false => simp [solarRayTracingVegCheck, h]

/-- Witness for C9 with one vegetation region. -/
theorem kclai_missing_fatal_witness :
    solarRayTracingVegCheck 1 false = Except.error kcLAImissingMsg ∧
    (∀ ok : Bool, solarRayTracingVegCheck 1 ok = Except.ok () ↔ ok = true) ∧
    kcLAImissingMsg ≠ "" :=
  kclai_missing_fatal 1 (by decide)

/-! ### Trapezoidal LAD integration and Beer-Lambert transmittance
(calcLAI.C 393-427, 541, 680-685) -/

/-- Flat index into the Cartesian grid: pIndex = (nx*ny)*k + j*nx + i, as in
calcLAI.C:417. -/
def pIdx (nx ny i j k : ℕ) : ℕ := nx * ny * k + j * nx + i

/-- Cumulative LAI produced by the downward loop of integrateLAD
(calcLAI.C:410-424): grid levels k >= nz-1 keep their zero initialisation and
each lower level adds the trapezoid 0.5*(LAD[k] + LAD[k+1])*dz to the level
above. -/
noncomputable def LAIcol (LAD : ℕ → ℝ) (nx ny nz : ℕ) (dz : ℝ) (i j k : ℕ) :
    ℝ :=
  if nz - 1 ≤ k then 0
  else LAIcol LAD nx ny nz dz i j (k + 1) +
    0.5 * (LAD (pIdx nx ny i j k) + LAD (pIdx nx ny i j (k + 1))) * dz
termination_by nz - 1 - k
decreasing_by
  simp_wf
  omega

/-- Transmitted direct short-wave intensity, calcLAI.C:684:
qrswInterpRot = IDN * exp(-kc*LAI). -/
noncomputable def qrswOf (IDN kc lai : ℝ) : ℝ := IDN * Real.exp (-kc * lai)

/-- Default extinction coefficient, calcLAI.C:541. -/
noncomputable def kcDefault : ℝ := 0.5

theorem LAIcol_uniform_aux (d dz : ℝ) (nx ny nz i j : ℕ) :
    ∀ m k, nz - 1 - k = m →
      LAIcol (fun _ => d) nx ny nz dz i j k = d * ((m : ℝ) * dz) := by
  intro m
  induction m with
  | zero =>
    intro k hk
    rw [LAIcol, if_pos (by omega)]
    simp
  | succ m ih =>
    intro k hk
    rw [LAIcol, if_neg (by omega), ih (k + 1) (by omega)]
    push_cast
    ring

/-- Claim C5: for a uniform leaf-area density d on a rotated grid of nz levels
with vertical spacing dz (canopy thickness h = (nz-1)*dz), the trapezoidal
integration yields cumulative LAI d*h at the canopy bottom (level 0), and the
transmitted direct short-wave intensity there is exactly
IDN * exp(-kc * (d*h)) with the default extinction coefficient kc = 0.5. -/
theorem lai_uniform_canopy (d dz IDN : ℝ) (nx ny nz i j : ℕ) :
    LAIcol (fun _ => d) nx ny nz dz i j 0 = d * (((nz - 1 : ℕ) : ℝ) * dz) ∧
    qrswOf IDN kcDefault (LAIcol (fun _ => d) nx ny nz dz i j 0) =
      IDN * Real.exp (-kcDefault * (d * (((nz - 1 : ℕ) : ℝ) * dz))) ∧
    kcDefault = 0.5 := by
  have h := LAIcol_uniform_aux d dz nx ny nz i j (nz - 1) 0 (by omega)
  refine ⟨h, ?_, rfl⟩
  rw [h]
  rfl

/-! ### Shadow forcing of LAI and trilinear interpolation
(calcLAI.C 116-175, 763-781, 803, 814, 906-929, 952-961) -/

/-- Trilinear interpolation interp3D of calcLAI.C 116-175, with the grid
values accessed through an integer-indexed function (the C code indexes a flat
array with int arithmetic). -/
noncomputable def interp3D (val : ℤ → ℝ) (nx ny : ℤ) (pt pmin dp : Vec3) :
    ℝ :=
  let xp := pt.x - pmin.x
  let yp := pt.y - pmin.y
  let zp := pt.z - pmin.z
  let i0 : ℤ := ⌊xp / dp.x⌋
  let j0 : ℤ := ⌊yp / dp.y⌋
  let k0 : ℤ := max 0 ⌊zp / dp.z⌋
  let i000 := nx * ny * k0 + j0 * nx + i0
  let i100 := nx * ny * k0 + j0 * nx + i0 + 1
  let i010 := nx * ny * k0 + (j0 + 1) * nx + i0
  let i110 := nx * ny * k0 + (j0 + 1) * nx + i0 + 1
  let i001 := nx * ny * (k0 + 1) + j0 * nx + i0
  let i101 := nx * ny * (k0 + 1) + j0 * nx + i0 + 1
  let i011 := nx * ny * (k0 + 1) + (j0 + 1) * nx + i0
  let i111 := nx * ny * (k0 + 1) + (j0 + 1) * nx + i0 + 1
  let xd := (pt.x - (pmin.x + (i0 : ℝ) * dp.x)) / dp.x
  let yd := (pt.y - (pmin.y + (j0 : ℝ) * dp.y)) / dp.y
  let zd := (pt.z - (pmin.z + (k0 : ℝ) * dp.z)) / dp.z
  let c00 := val i000 * (1 - xd) + val i100 * xd
  let c01 := val i001 * (1 - xd) + val i101 * xd
  let c10 := val i010 * (1 - xd) + val i110 * xd
  let c11 := val i011 * (1 - xd) + val i111 * xd
  let c0 := c00 * (1 - yd) + c10 * yd
  let c1 := c01 * (1 - yd) + c11 * yd
  c0 * (1 - zd) + c1 * zd

/-- Update of a mesh cell's LAI inside the vegetation bounding box,
calcLAI.C 767-781 together with 803 and 814: an unobstructed ray interpolates
the rotated cumulative-LAI grid trilinearly; an obstructed ray forces
LAI = 1000 only when the cell's LAD exceeds 10*SMALL, and otherwise leaves the
previous value. -/
noncomputable def updateCellLAI (hit : Bool) (LADc oldLAI : ℝ) (val : ℤ → ℝ)
    (nx ny : ℤ) (pt pmin dp : Vec3) : ℝ :=
  if hit = false then interp3D val nx ny pt pmin dp
  else if 10 * SMALL < LADc then 1000
  else oldLAI

/-- Update of a boundary coarse face's kc*LAI entry, calcLAI.C 906-929 and
952-961: outside the bounding box the entry is untouched; inside, an
obstructed ray forces the entry to 1000, an unobstructed one stores
kc * interp3D(LAI grid). -/
noncomputable def updateFaceKcLAI (inside hit : Bool) (old kc : ℝ)
    (val : ℤ → ℝ) (nx ny : ℤ) (pt pmin dp : Vec3) : ℝ :=
  if inside then
    if hit = false then kc * interp3D val nx ny pt pmin dp else 1000
  else old

/-- Claim C6, counterexample: a mesh cell inside the vegetation bounding box
whose ray toward the sun is obstructed but whose own LAD is 0 (not above the
10*SMALL vegetation threshold) keeps its previous LAI (here 0) instead of
being forced to the saturating value 1000. -/
theorem lai_forced_counterexample :
    updateCellLAI true 0 0 (fun _ => 0) 1 1 ⟨0, 0, 0⟩ ⟨0, 0, 0⟩ ⟨1, 1, 1⟩ = 0 ∧
    (0 : ℝ) ≠ 1000 := by
  constructor
  · unfold updateCellLAI
    rw [if_neg (by simp), if_neg (by unfold SMALL; norm_num)]
  · norm_num

/-- Claim C6, amended: an obstructed mesh cell is forced to LAI = 1000 only
when its LAD exceeds 10*SMALL, and otherwise keeps its previous LAI; an
unobstructed cell receives the trilinear interpolation of the rotated
cumulative-LAI grid.  A boundary face inside the bounding box is forced
unconditionally to 1000 (stored in the kc*LAI artifact) when obstructed, and
receives kc times the trilinear interpolation when unobstructed; a face
outside the bounding box is untouched. -/
theorem lai_forcing_amended (hit : Bool) (LADc old kc : ℝ) (val : ℤ → ℝ)
    (nx ny : ℤ) (pt pmin dp : Vec3) :
    (10 * SMALL < LADc →
      updateCellLAI true LADc old val nx ny pt pmin dp = 1000) ∧
    (¬ 10 * SMALL < LADc →
      updateCellLAI true LADc old val nx ny pt pmin dp = old) ∧
    (updateCellLAI false LADc old val nx ny pt pmin dp =
      interp3D val nx ny pt pmin dp) ∧
    (updateFaceKcLAI true true old kc val nx ny pt pmin dp = 1000) ∧
    (updateFaceKcLAI true false old kc val nx ny pt pmin dp =
      kc * interp3D val nx ny pt pmin dp) ∧
    (updateFaceKcLAI false hit old kc val nx ny pt pmin dp = old) := by
  refine ⟨?_, ?_, ?_, ?_, ?_, ?_⟩
  · intro hl
    unfold updateCellLAI
    rw [if_neg (by simp), if_pos hl]
  · intro hl
    unfold updateCellLAI
    rw [if_neg (by simp), if_neg hl]
  · rfl
  · unfold updateFaceKcLAI
    rw [if_pos rfl, if_neg (by simp)]
  · rfl
  · rfl

/-- Witness for C6's amended statement at concrete inputs (a cell with LAD 1,
well above the threshold, and one with LAD 0). -/
theorem lai_forcing_amended_witness :
    (updateCellLAI true 1 0 (fun _ => 0) 1 1 ⟨0, 0, 0⟩ ⟨0, 0, 0⟩ ⟨1, 1, 1⟩
      = 1000) ∧
    (updateCellLAI true 0 7 (fun _ => 0) 1 1 ⟨0, 0, 0⟩ ⟨0, 0, 0⟩ ⟨1, 1, 1⟩
      = 7) :=
  ⟨(lai_forcing_amended true 1 0 0 (fun _ => 0) 1 1 ⟨0, 0, 0⟩ ⟨0, 0, 0⟩
      ⟨1, 1, 1⟩).1 (by unfold SMALL; norm_num),
   (lai_forcing_amended true 0 7 0 (fun _ => 0) 1 1 ⟨0, 0, 0⟩ ⟨0, 0, 0⟩
      ⟨1, 1, 1⟩).2.1 (by unfold SMALL; norm_num)⟩

/-! ### Interpolation between sun-position time stamps
(directAndDiffuse.C 738-758 and 851-866) -/

/-- The bracketing-index search loop of directAndDiffuse.C 742-753: scanning
the stored time stamps in order with running index i, each stamp x with
t >= x sets lo = hi = i, and the first stamp with t < x sets hi = i and stops.
Time stamps are modelled as rationals (the loop only compares and subtracts
scalars). -/
def loHiLoop (t : ℚ) : List ℚ → ℕ → ℕ × ℕ → ℕ × ℕ
  | [], _, s => s
  | x :: rest, i, s =>
    if x ≤ t then loHiLoop t rest (i + 1) (i, i) else (s.1, i)

/-- The bracketing pair (lo, hi) for query time t, starting from (0, 0). -/
def findLoHi (times : List ℚ) (t : ℚ) : ℕ × ℕ := loHiLoop t times 0 (0, 0)

/-- hi_fraction of directAndDiffuse.C 754-758: zero when lo = hi, otherwise
(t - x[lo])/(x[hi] - x[lo]). -/
def hiFraction (times : List ℚ) (t : ℚ) : ℚ :=
  let lh := findLoHi times t
  if lh.1 ≠ lh.2 then (t - times.getD lh.1 0) / (times.getD lh.2 0 - times.getD lh.1 0)
  else 0

/-- The interpolated sun+sky coupling coefficient of directAndDiffuse.C
855-856: coeff[lo]*(1 - hi_fraction) + coeff[hi]*hi_fraction summed over the
sky and sun tables. -/
def interpIsol (sky sun : ℕ → ℚ) (times : List ℚ) (t : ℚ) : ℚ :=
  let lh := findLoHi times t
  let f := hiFraction times t
  sky lh.1 * (1 - f) + sky lh.2 * f + sun lh.1 * (1 - f) + sun lh.2 * f

theorem loHiLoop_all_le (t : ℚ) (l : List ℚ) (h : ∀ x ∈ l, x ≤ t)
    (hne : l ≠ []) :
    ∀ i s, loHiLoop t l i s = (i + l.length - 1, i + l.length - 1) := by
  induction l with
  | nil => exact absurd rfl hne
  | cons a rest ih =>
    intro i s
    rw [loHiLoop, if_pos (h a (List.mem_cons_self a rest))]
    match rest with
    | [] => simp [loHiLoop]
    | b :: r =>
      rw [ih (fun x hx => h x (List.mem_cons_of_mem a hx)) (by simp)]
      simp only [List.length_cons, Prod.mk.injEq]
      omega

theorem loHiLoop_stops (t : ℚ) (l1 : List ℚ) (y : ℚ) (l2 : List ℚ)
    (h1 : ∀ x ∈ l1, x ≤ t) (hy : t < y) (hne : l1 ≠ []) :
    ∀ i s, loHiLoop t (l1 ++ y :: l2) i s =
      (i + l1.length - 1, i + l1.length) := by
  induction l1 with
  | nil => exact absurd rfl hne
  | cons a rest ih =>
    intro i s
    rw [List.cons_append, loHiLoop, if_pos (h1 a (List.mem_cons_self a rest))]
    match rest with
    | [] =>
      rw [List.nil_append, loHiLoop, if_neg (not_le.mpr hy)]
      simp
    | b :: r =>
      rw [ih (fun x hx => h1 x (List.mem_cons_of_mem a hx)) (by simp)]
      simp only [List.length_cons, Prod.mk.injEq]
      omega

theorem findLoHi_at_stamp (times : List ℚ) (k : ℕ) (hk : k < times.length)
    (hsort : times.Pairwise (fun a b => a < b)) :
    findLoHi times times[k] =
      if k + 1 < times.length then (k, k + 1) else (k, k) := by
  have hsplit : times = times.take (k + 1) ++ times.drop (k + 1) :=
    (List.take_append_drop (k + 1) times).symm
  have hlen1 : (times.take (k + 1)).length = k + 1 := by
    rw [List.length_take]
    omega
  have hne1 : times.take (k + 1) ≠ [] := by
    intro hnil
    rw [hnil] at hlen1
    simp at hlen1
  have hpw := List.pairwise_iff_getElem.mp hsort
  have hmem : ∀ x ∈ times.take (k + 1), x ≤ times[k] := by
    intro x hx
    obtain ⟨m, hm, hget⟩ := List.getElem_of_mem hx
    rw [List.getElem_take] at hget
    rw [hlen1] at hm
    subst hget
    rcases Nat.lt_or_ge m k with hlt | hge
    · exact le_of_lt (hpw m k (by omega) hk hlt)
    · have hmk : m = k := by omega
      subst hmk
      exact le_rfl
  by_cases hk1 : k + 1 < times.length
  · rw [if_pos hk1]
    have hdrop : times.drop (k + 1) = times[k + 1] :: times.drop (k + 2) :=
      List.drop_eq_getElem_cons hk1
    have hLeq : times = times.take (k + 1) ++
        (times[k + 1] :: times.drop (k + 2)) := by
      conv_lhs => rw [hsplit]
      rw [hdrop]
    have hyk : times[k] < times[k + 1] := hpw k (k + 1) hk hk1 (by omega)
    unfold findLoHi
    rw [congrArg (fun L => loHiLoop times[k] L 0 (0, 0)) hLeq]
    rw [loHiLoop_stops times[k] (times.take (k + 1)) times[k + 1]
      (times.drop (k + 2)) hmem hyk hne1 0 (0, 0)]
    rw [hlen1]
    simp only [Prod.mk.injEq]
    omega
  · rw [if_neg hk1]
    have hall : times.drop (k + 1) = [] := by
      rw [List.drop_eq_nil_iff]
      omega
    have htimes : times = times.take (k + 1) := by
      conv_lhs => rw [hsplit]
      rw [hall, List.append_nil]
    unfold findLoHi
    rw [congrArg (fun L => loHiLoop times[k] L 0 (0, 0)) htimes]
    rw [loHiLoop_all_le times[k] (times.take (k + 1)) hmem hne1 0 (0, 0)]
    rw [hlen1]
    simp only [Prod.mk.injEq]
    omega

/-- Claim C7: when the query time equals a stored time stamp of a strictly
increasing sun-position table, hi_fraction is 0 and the interpolated sun+sky
coupling coefficient equals the stored value at that stamp exactly. -/
theorem interp_exact_at_stamp (times : List ℚ) (sky sun : ℕ → ℚ) (k : ℕ)
    (hk : k < times.length) (hsort : times.Pairwise (fun a b => a < b))
    (t : ℚ) (ht : t = times[k]) :
    hiFraction times t = 0 ∧
    interpIsol sky sun times t = sky k + sun k := by
  subst ht
  have hfind := findLoHi_at_stamp times k hk hsort
  have hgetd : times.getD k 0 = times[k] := List.getD_eq_getElem times 0 hk
  by_cases hk1 : k + 1 < times.length
  · rw [if_pos hk1] at hfind
    have hfrac : hiFraction times times[k] = 0 := by
      unfold hiFraction
      rw [hfind]
      rw [if_pos (by omega)]
      rw [hgetd, sub_self, zero_div]
    refine ⟨hfrac, ?_⟩
    unfold interpIsol
    rw [hfind, hfrac]
    ring
  · rw [if_neg hk1] at hfind
    have hfrac : hiFraction times times[k] = 0 := by
      unfold hiFraction
      rw [hfind]
      simp
    refine ⟨hfrac, ?_⟩
    unfold interpIsol
    rw [hfind, hfrac]
    ring

/-- Witness for C7: the table [0, 10] queried exactly at its first stamp. -/
theorem interp_exact_at_stamp_witness :
    hiFraction [0, 10] 0 = 0 ∧
    interpIsol (fun n => (n : ℚ) + 3) (fun n => 2 * (n : ℚ) + 1) [0, 10] 0 =
      ((0 : ℚ) + 3) + (2 * (0 : ℚ) + 1) :=
  interp_exact_at_stamp [0, 10] (fun n => (n : ℚ) + 3)
    (fun n => 2 * (n : ℚ) + 1) 0 (by norm_num) (by norm_num) 0 rfl

/-! ### Bounded leaf / grass temperature iteration
(simplifiedVegetation.C 53-68, 456-562; simpleGrass.C 281-351) -/

/-- Atmospheric pressure constant, simplifiedVegetation.C:461. -/
noncomputable def pAtm : ℝ := 101325

/-- Saturated vapor pressure, simplifiedVegetation.C:53-62 (ASHRAE 1.2). -/
noncomputable def calc_evsat (T : ℝ) : ℝ :=
  Real.exp (-5.8002206e3 / T + 1.3914993 - 4.8640239e-2 * T
    + 4.1764768e-5 * T ^ 2 - 1.4452093e-8 * T ^ 3 + 6.5459673 * Real.log T)

/-- OpenFOAM pos(): 1 for a positive scalar, 0 otherwise. -/
noncomputable def posScalar (x : ℝ) : ℝ := if 0 < x then 1 else 0

/-- Per-run vegetation model parameters. -/
structure VegParams where
  rhoa : ℝ
  cpa : ℝ
  lambda : ℝ
  nEvapSides : ℝ
  TlRelax : ℝ
  TlResidual : ℝ

/-- Frozen per-cell inputs to one leaf-temperature iteration (air temperature,
net and global radiation, specific humidity, aerodynamic and stomatal
resistance, leaf area density; the resistance function does not depend on the
leaf temperature). -/
structure VegCell where
  T : ℝ
  Rn : ℝ
  Rg : ℝ
  q : ℝ
  ra : ℝ
  rs : ℝ
  LAD : ℝ

/-- The raw new leaf temperature computed at simplifiedVegetation.C 502-514:
qsat from the saturated vapor pressure at the current leaf temperature,
transpiration gated by pos(Rg - SMALL), latent heat lambda*E, and
new_Tl = T + (Rn - Qlat)*(ra/(2*rhoa*cpa*LAD)). -/
noncomputable def newTlRaw (P : VegParams) (c : VegCell) (Tl : ℝ) : ℝ :=
  let evsat := calc_evsat Tl
  let qsat := 0.621945 * (evsat / (pAtm - evsat))
  let E := posScalar (c.Rg - SMALL) * P.nEvapSides * c.LAD * P.rhoa *
    (qsat - c.q) / (c.ra + c.rs)
  let Qlat := P.lambda * E
  c.T + (c.Rn - Qlat) * (c.ra / (2 * P.rhoa * P.cpa * c.LAD))

/-- Lower leaf-temperature bound Tl_min, simplifiedVegetation.C:484. -/
noncomputable def TlMin : ℝ := 250

/-- Upper leaf-temperature bound Tl_max, simplifiedVegetation.C:485. -/
noncomputable def TlMax : ℝ := 400

/-- One cell's update inside the iteration loop (simplifiedVegetation.C
493-532): only cells with LAD > 10*SMALL are updated; a raw value outside
[Tl_min, Tl_max] is clamped with min/max and flags the bounding warning. -/
noncomputable def stepCellVeg (P : VegParams) (c : VegCell) (Tl oldNew : ℝ) :
    ℝ × Bool :=
  if 10 * SMALL < c.LAD then
    let raw := newTlRaw P c Tl
    if raw < TlMin ∨ TlMax < raw then (max (min raw TlMax) TlMin, true)
    else (raw, false)
  else (oldNew, false)

/-- One sweep over all cells: updated new_Tl values and whether the bounding
warning is printed this iteration (reduce with or, simplifiedVegetation.C
534-539). -/
noncomputable def vegIterOnce (P : VegParams) (cells : List VegCell)
    (Tl newTl : List ℝ) : List ℝ × Bool :=
  let stepped := List.zipWith (fun c pr => stepCellVeg P c pr.1 pr.2) cells
    (List.zip Tl newTl)
  (stepped.map Prod.fst, stepped.any Prod.snd)

/-- gMax(mag(...)) over a field, as a fold of absolute values. -/
noncomputable def linfList (l : List ℝ) : ℝ :=
  l.foldl (fun a x => max a |x|) 0

/-- The leaf-temperature iteration loop of simplifiedVegetation.C 488-556 with
its remaining iteration budget made explicit: each pass updates new_Tl,
measures the relative L-infinity error, relaxes Tl toward new_Tl with factor
Tl_relax, and stops early exactly when maxRelError < Tl_residualControl.  The
result carries the final Tl field and the number of iterations performed. -/
noncomputable def vegLoop (P : VegParams) (cells : List VegCell) :
    ℕ → List ℝ → List ℝ → List ℝ × ℕ
  | 0, Tl, _ => (Tl, 0)
  | n + 1, Tl, newTl =>
    let it := vegIterOnce P cells Tl newTl
    let maxErr := linfList (List.zipWith (fun a b => a - b) it.1 Tl)
    let maxRel := maxErr / linfList it.1
    let Tl2 := List.zipWith
      (fun told tnew => (1 - P.TlRelax) * told + P.TlRelax * tnew) Tl it.1
    if maxRel < P.TlResidual then (Tl2, 1)
    else
      let r := vegLoop P cells n Tl2 it.1
      (r.1, r.2 + 1)

/-- The full solve: maxIter = 100 (simplifiedVegetation.C:487), new_Tl
initialised as a copy of Tl (simplifiedVegetation.C:468). -/
noncomputable def vegSolve (P : VegParams) (cells : List VegCell)
    (Tl0 : List ℝ) : List ℝ × ℕ :=
  vegLoop P cells 100 Tl0 Tl0

/-- min over a grass field (simpleGrass.C uses min(field)). -/
noncomputable def minList : List ℝ → ℝ
  | [] => 0
  | x :: xs => xs.foldl min x

/-- max over a grass field. -/
noncomputable def maxList : List ℝ → ℝ
  | [] => 0
  | x :: xs => xs.foldl max x

/-- The grass-temperature bounding step of simpleGrass.C 301-323: if any entry
of the freshly computed field lies outside [250, 400] the whole field is
clamped entrywise with min/max and the bounding warning is flagged. -/
noncomputable def grassClampStep (TgNew : List ℝ) : List ℝ × Bool :=
  if minList TgNew < TlMin ∨ TlMax < maxList TgNew then
    (TgNew.map fun x => max (min x TlMax) TlMin, true)
  else (TgNew, false)

theorem vegLoop_iter_le (P : VegParams) (cells : List VegCell) :
    ∀ n Tl newTl, (vegLoop P cells n Tl newTl).2 ≤ n := by
  intro n
  induction n with
  | zero =>
    intro Tl newTl
    rw [vegLoop]
  | succ n ih =>
    intro Tl newTl
    rw [vegLoop]
    split_ifs
    · omega
    · exact Nat.succ_le_succ (ih (List.zipWith
        (fun told tnew => (1 - P.TlRelax) * told + P.TlRelax * tnew) Tl
        (vegIterOnce P cells Tl newTl).1) (vegIterOnce P cells Tl newTl).1)

/-- Claim C8: an out-of-bounds leaf temperature is clamped into [250, 400]
with the bounding warning flagged; an in-bounds value passes through
unchanged and silently; the loop performs at most 100 iterations (it never
aborts and stops early only on meeting the residual control); the Tl update
is the relaxation (1 - Tl_relax)*Tl + Tl_relax*new_Tl; and the grass solve
flags its bounding warning exactly when some entry of the new grass
temperature field leaves [250, 400], clamping the field entrywise into that
range. -/
theorem leaf_temp_clamped_warned_bounded (P : VegParams) (c : VegCell)
    (Tl oldNew : ℝ) :
    (10 * SMALL < c.LAD → newTlRaw P c Tl < TlMin ∨ TlMax < newTlRaw P c Tl →
      stepCellVeg P c Tl oldNew = (max (min (newTlRaw P c Tl) TlMax) TlMin, true) ∧
      TlMin ≤ (stepCellVeg P c Tl oldNew).1 ∧
      (stepCellVeg P c Tl oldNew).1 ≤ TlMax) ∧
    (10 * SMALL < c.LAD → TlMin ≤ newTlRaw P c Tl → newTlRaw P c Tl ≤ TlMax →
      stepCellVeg P c Tl oldNew = (newTlRaw P c Tl, false)) ∧
    (∀ cells n Tl0 newTl0, (vegLoop P cells n Tl0 newTl0).2 ≤ n) ∧
    (∀ cells Tl0, (vegSolve P cells Tl0).2 ≤ 100) ∧
    (∀ cells n Tl0 newTl0,
      ¬ linfList (List.zipWith (fun a b => a - b)
          (vegIterOnce P cells Tl0 newTl0).1 Tl0) /
        linfList (vegIterOnce P cells Tl0 newTl0).1 < P.TlResidual →
      vegLoop P cells (n + 1) Tl0 newTl0 =
        ((vegLoop P cells n
            (List.zipWith (fun told tnew =>
              (1 - P.TlRelax) * told + P.TlRelax * tnew) Tl0
              (vegIterOnce P cells Tl0 newTl0).1)
            (vegIterOnce P cells Tl0 newTl0).1).1,
         (vegLoop P cells n
            (List.zipWith (fun told tnew =>
              (1 - P.TlRelax) * told + P.TlRelax * tnew) Tl0
              (vegIterOnce P cells Tl0 newTl0).1)
            (vegIterOnce P cells Tl0 newTl0).1).2 + 1)) ∧
    (∀ l : List ℝ,
      ((grassClampStep l).2 = true ↔ minList l < TlMin ∨ TlMax < maxList l) ∧
      ((grassClampStep l).2 = true →
        ∀ x ∈ (grassClampStep l).1, TlMin ≤ x ∧ x ≤ TlMax)) := by
  refine ⟨?_, ?_, vegLoop_iter_le P, ?_, ?_, ?_⟩
  · intro hlad hout
    have hstep : stepCellVeg P c Tl oldNew =
        (max (min (newTlRaw P c Tl) TlMax) TlMin, true) := by
      unfold stepCellVeg
      rw [if_pos hlad, if_pos hout]
    refine ⟨hstep, ?_, ?_⟩
    · rw [hstep]
      exact le_max_right _ _
    · rw [hstep]
      have h1 : min (newTlRaw P c Tl) TlMax ≤ TlMax := min_le_right _ _
      have h2 : TlMin ≤ TlMax := by
        unfold TlMin TlMax
        norm_num
      exact max_le h1 h2
  · intro hlad hlo hhi
    unfold stepCellVeg
    rw [if_pos hlad, if_neg (by push_neg; exact ⟨hlo, hhi⟩)]
  · intro cells Tl0
    exact vegLoop_iter_le P cells 100 Tl0 Tl0
  · intro cells n Tl0 newTl0 hnc
    rw [vegLoop]
    rw [if_neg hnc]
  · intro l
    constructor
    · unfold grassClampStep
      split_ifs with hcond
      · simp [hcond]
      · simp [hcond]
    · intro hwarn x hx
      unfold grassClampStep at hwarn hx
      split_ifs at hwarn hx with hcond
      · obtain ⟨y, -, rfl⟩ := List.mem_map.mp hx
        constructor
        · exact le_max_right _ _
        · have h2 : TlMin ≤ TlMax := by
            unfold TlMin TlMax
            norm_num
          exact max_le (min_le_right _ _) h2

/-- Witness for C8: a cell whose raw update (air temperature 300 K plus a
large radiative gain, transpiration gated off since Rg = 0) lands far above
400 K is clamped and flagged, and a tiny-LAD cell is skipped. -/
theorem leaf_temp_clamped_warned_bounded_witness :
    (stepCellVeg ⟨1, 1, 5, 1, 1 / 2, 1e-8⟩ ⟨300, 2000000, 0, 0, 1, 1, 1⟩ 300 300 =
      (max (min (newTlRaw ⟨1, 1, 5, 1, 1 / 2, 1e-8⟩ ⟨300, 2000000, 0, 0, 1, 1, 1⟩ 300)
        TlMax) TlMin, true) ∧
     TlMin ≤ (stepCellVeg ⟨1, 1, 5, 1, 1 / 2, 1e-8⟩ ⟨300, 2000000, 0, 0, 1, 1, 1⟩
        300 300).1 ∧
     (stepCellVeg ⟨1, 1, 5, 1, 1 / 2, 1e-8⟩ ⟨300, 2000000, 0, 0, 1, 1, 1⟩
        300 300).1 ≤ TlMax) ∧
    (vegSolve ⟨1, 1, 5, 1, 1 / 2, 1e-8⟩ [] [300]).2 ≤ 100 := by
  have hraw : newTlRaw ⟨1, 1, 5, 1, 1 / 2, 1e-8⟩ ⟨300, 2000000, 0, 0, 1, 1, 1⟩ 300 =
      300 + 2000000 * (1 / 2) := by
    unfold newTlRaw posScalar
    rw [if_neg (by unfold SMALL; norm_num)]
    norm_num
  refine ⟨(leaf_temp_clamped_warned_bounded ⟨1, 1, 5, 1, 1 / 2, 1e-8⟩
      ⟨300, 2000000, 0, 0, 1, 1, 1⟩ 300 300).1 (by unfold SMALL; norm_num) ?_,
    (leaf_temp_clamped_warned_bounded ⟨1, 1, 5, 1, 1 / 2, 1e-8⟩
      ⟨300, 2000000, 0, 0, 1, 1, 1⟩ 300 300).2.2.2.1 [] [300]⟩
  right
  rw [hraw]
  unfold TlMax
  norm_num

end Airflow
